import Mathlib

set_option maxHeartbeats 1000000
set_option maxRecDepth 4000

/-!
Verification of the SUDOKOO puzzle engine.

This file is a shallow embedding of the constraint engine of the SUDOKOO
repository: the game engine in src/js/sudoku.js (class SudokuEngine) and the
puzzle generator in src/js/generator.js (class SudokuGenerator).

Grids are total functions from a (row, col) pair of natural numbers to the
stored digit, 0 meaning an empty cell; every engine loop ranges over the
indices 0..8 exactly as the corresponding JavaScript loop does, so cells
outside the 9×9 board are never read by the embedded operations.  Mutable
state (the working grid, the given mask, the stored solution and the per-cell
pencil-mark sets) is passed explicitly.  The two sources of randomness
(Math.random driven candidate shuffling and position shuffling) are modelled
as explicit parameters: a candidate-order oracle for the backtracking filler
and an arbitrary visit-order list / random draw for puzzle derivation.
-/

namespace Sudokoo

/-- A 9×9 grid of cell values; 0 encodes an empty cell. -/
def Grid : Type := Nat → Nat → Nat

/-- Build a grid from a row-major list of rows (cells outside the lists read 0). -/
def gridOfLists (l : List (List Nat)) : Grid :=
  fun r c => (l.getD r []).getD c 0

/-- The JavaScript assignment grid[r][c] = v on a value-semantics grid. -/
def setCell (g : Grid) (r c v : Nat) : Grid :=
  fun i j => if i = r ∧ j = c then v else g i j

/-- The 81 board positions in row-major order (the order in which every
row/column double loop of the source visits the board). -/
def allPositions : List (Nat × Nat) :=
  (List.range 9).flatMap (fun r => (List.range 9).map (fun c => (r, c)))

/-- The list [1, ..., 9] of candidate digits (the JS numbers array). -/
def nineList : List Nat := [1, 2, 3, 4, 5, 6, 7, 8, 9]

/-- The cells of row r, in column order (the JS row scan). -/
def rowCells (row : Nat) : List (Nat × Nat) :=
  (List.range 9).map (fun x => (row, x))

/-- The cells of column c, in row order (the JS column scan). -/
def colCells (col : Nat) : List (Nat × Nat) :=
  (List.range 9).map (fun x => (x, col))

/-- The nine cells of the 3×3 box containing (row, col), visited exactly as
the JS double loop starting at (boxRow, boxCol) does. -/
def boxCells (row col : Nat) : List (Nat × Nat) :=
  (List.range 3).flatMap
    (fun i => (List.range 3).map (fun j => (row / 3 * 3 + i, col / 3 * 3 + j)))

/-- The mutable state of a SudokuEngine instance: working grid, stored
solution (none models the JS null that solvePuzzle returns on failure),
given mask (this.initialGrid) and the per-cell pencil-mark sets. -/
structure EngineState where
  grid : Grid
  solution : Option Grid
  initialGrid : Grid
  pencilMarks : Nat → Nat → Finset Nat

/-- The structured result of a mutation ({ success, error }). -/
structure MoveResult where
  success : Bool
  error : Option String
deriving DecidableEq

/-- sudoku.js isValidMove: false on a given cell (initialGrid non-zero);
otherwise num must not occur at another cell of the row, of the column, or
of the containing 3×3 box. -/
def isValidMove (s : EngineState) (row col num : Nat) : Bool :=
  if s.initialGrid row col ≠ 0 then false
  else
    ((List.range 9).all fun x => !(x != col && s.grid row x == num)) &&
    ((List.range 9).all fun x => !(x != row && s.grid x col == num)) &&
    ((List.range 3).all fun i => (List.range 3).all fun j =>
      !(((row / 3 * 3 + i, col / 3 * 3 + j) : Nat × Nat) != (row, col) &&
        s.grid (row / 3 * 3 + i) (col / 3 * 3 + j) == num))

/-- sudoku.js addPencilMark: inserts num at an empty cell and reports
whether the mark was added. -/
def addPencilMark (s : EngineState) (row col num : Nat) : Bool × EngineState :=
  if s.grid row col = 0 then
    (true,
     { s with pencilMarks := fun i j =>
         if i = row ∧ j = col then insert num (s.pencilMarks i j)
         else s.pencilMarks i j })
  else (false, s)

/-- sudoku.js removePencilMark: deletes num from the cell's mark set (the JS
method always returns true, so only the state is modelled). -/
def removePencilMark (s : EngineState) (row col num : Nat) : EngineState :=
  { s with pencilMarks := fun i j =>
      if i = row ∧ j = col then (s.pencilMarks i j).erase num
      else s.pencilMarks i j }

/-- sudoku.js togglePencilMark: flips membership of num at the cell and
returns whether the mark is now present (the JS method returns true on the
add path even when addPencilMark refused to add). -/
def togglePencilMark (s : EngineState) (row col num : Nat) : Bool × EngineState :=
  if num ∈ s.pencilMarks row col then (false, removePencilMark s row col num)
  else (true, (addPencilMark s row col num).2)

/-- sudoku.js clearPencilMarksForCell. -/
def clearPencilMarksForCell (s : EngineState) (row col : Nat) : EngineState :=
  { s with pencilMarks := fun i j =>
      if i = row ∧ j = col then ∅ else s.pencilMarks i j }

/-- sudoku.js clearPencilMarks: clears every cell's mark set. -/
def clearPencilMarks (s : EngineState) : EngineState :=
  { s with pencilMarks := fun _ _ => ∅ }

/-- sudoku.js updatePencilMarks: removes num from the mark set of every cell
of the placed cell's row, column and 3×3 box (three scans, in that order). -/
def updatePencilMarks (s : EngineState) (row col num : Nat) : EngineState :=
  let s1 := (rowCells row).foldl (fun t p => removePencilMark t p.1 p.2 num) s
  let s2 := (colCells col).foldl (fun t p => removePencilMark t p.1 p.2 num) s1
  (boxCells row col).foldl (fun t p => removePencilMark t p.1 p.2 num) s2

/-- sudoku.js placeNumber: rejects a given cell; num = 0 clears the cell
unconditionally; a legal 1..9 value is committed, the cell's marks cleared
and the value pruned from the row/column/box mark sets; an illegal value is
rejected with no mutation. -/
def placeNumber (s : EngineState) (row col num : Nat) : MoveResult × EngineState :=
  if s.initialGrid row col ≠ 0 then
    ({ success := false, error := some "Cannot modify given numbers" }, s)
  else if num = 0 then
    ({ success := true, error := none }, { s with grid := setCell s.grid row col 0 })
  else if isValidMove s row col num then
    let s1 := { s with grid := setCell s.grid row col num }
    let s2 := clearPencilMarksForCell s1 row col
    ({ success := true, error := none }, updatePencilMarks s2 row col num)
  else
    ({ success := false, error := some "Invalid move" }, s)

/-- sudoku.js getConflictingCells: empty unless the cell currently holds num;
otherwise collects the other cells of the row, column and box holding num,
in the scan order of the source. -/
def getConflictingCells (s : EngineState) (row col num : Nat) : List (Nat × Nat) :=
  if s.grid row col = 0 ∨ s.grid row col ≠ num then []
  else
    ((List.range 9).filterMap fun x =>
        if x ≠ col ∧ s.grid row x = num then some (row, x) else none) ++
    ((List.range 9).filterMap fun x =>
        if x ≠ row ∧ s.grid x col = num then some (x, col) else none) ++
    ((boxCells row col).filterMap fun p =>
        if p ≠ (row, col) ∧ s.grid p.1 p.2 = num then some p else none)

/-- sudoku.js isValidSolution: for every non-zero cell, temporarily clear it
in the working grid and re-check the value with isValidMove. -/
def isValidSolution (s : EngineState) : Bool :=
  allPositions.all fun p =>
    let num := s.grid p.1 p.2
    if num ≠ 0 then
      isValidMove { s with grid := setCell s.grid p.1 p.2 0 } p.1 p.2 num
    else true

/-- sudoku.js isSolved: all 81 cells filled and isValidSolution. -/
def isSolved (s : EngineState) : Bool :=
  (allPositions.all fun p => s.grid p.1 p.2 != 0) && isValidSolution s

/-- sudoku.js getPossibleValues: for an empty cell, the values 1..9 passing
isValidMove, in ascending order; empty list for a filled cell. -/
def getPossibleValues (s : EngineState) (row col : Nat) : List Nat :=
  if s.grid row col ≠ 0 then []
  else (List.range' 1 9).filter fun num => isValidMove s row col num

/-- The structured hint record returned by getHint. -/
structure Hint where
  row : Nat
  col : Nat
  value : Nat
  reason : String
deriving DecidableEq

/-- sudoku.js getHint: collect the empty cells in row-major order; null when
there are none; otherwise the first empty cell with exactly one possible
value (with that value), and failing that a random empty cell (the random
draw Math.floor(Math.random() * length) is modelled by randIdx % length)
with its value from the stored solution (0 stands for the crash the JS code
would take on a null solution; the theorems below therefore assume a stored
solution is present). -/
def getHint (s : EngineState) (randIdx : Nat) : Option Hint :=
  let emptyCells := allPositions.filter fun p => s.grid p.1 p.2 == 0
  if emptyCells.isEmpty then none
  else
    match emptyCells.find? (fun p => (getPossibleValues s p.1 p.2).length == 1) with
    | some p =>
        some { row := p.1, col := p.2,
               value := (getPossibleValues s p.1 p.2).headD 0,
               reason := "Only one possible value" }
    | none =>
        let p := emptyCells.getD (randIdx % emptyCells.length) (0, 0)
        some { row := p.1, col := p.2,
               value := match s.solution with | some sol => sol p.1 p.2 | none => 0,
               reason := "Random hint" }

/-- sudoku.js isValidMoveForGrid (solver legality): num must not occur
anywhere in the row, the column, or the box (no self-exclusion; the probed
cell is empty by construction). -/
def isValidMoveForGrid (g : Grid) (row col num : Nat) : Bool :=
  ((List.range 9).all fun x => !(g row x == num)) &&
  ((List.range 9).all fun x => !(g x col == num)) &&
  ((List.range 3).all fun i => (List.range 3).all fun j =>
    !(g (row / 3 * 3 + i) (col / 3 * 3 + j) == num))

/-- The row-major scan for the first empty cell performed at the top of each
recursive solver / filler call. -/
def firstEmpty (g : Grid) : Option (Nat × Nat) :=
  allPositions.find? fun p => g p.1 p.2 == 0

/-- Try candidates left to right and return the first successful recursive
result (the JS for-loop over candidate values with early return). -/
def firstSome (f : Nat → Option Grid) : List Nat → Option Grid
  | [] => none
  | n :: ns =>
    match f n with
    | some g => some g
    | none => firstSome f ns

/-- sudoku.js solveRecursive: at the first empty cell try 1..9 ascending,
recursing on legal placements and undoing on failure; success when no empty
cell remains.  The JS recursion is bounded by the number of empty cells, so
it is embedded with explicit fuel; 81 units suffice for any 9×9 grid. -/
def solveRecursive : Nat → Grid → Option Grid
  | 0, g => if (firstEmpty g).isNone then some g else none
  | fuel + 1, g =>
    match firstEmpty g with
    | none => some g
    | some p =>
      firstSome
        (fun num =>
          if isValidMoveForGrid g p.1 p.2 num then
            solveRecursive fuel (setCell g p.1 p.2 num)
          else none)
        (List.range' 1 9)

/-- sudoku.js solvePuzzle: run the backtracking solver on a copy of the grid;
none models the JS null returned when the search is infeasible. -/
def solvePuzzle (g : Grid) : Option Grid :=
  solveRecursive 81 g

/-- sudoku.js init: copy the puzzle into the working grid and the given mask,
store the supplied solution or (when omitted) the solver's result — which is
null when the puzzle is infeasible — clear all pencil marks, and return true
unconditionally. -/
def init (puzzle : Grid) (solution : Option Grid) : Bool × EngineState :=
  (true,
   { grid := puzzle
     initialGrid := puzzle
     solution := match solution with | some sol => some sol | none => solvePuzzle puzzle
     pencilMarks := fun _ _ => ∅ })

/-- sudoku.js reset: restore the working grid from the given mask and clear
all pencil marks. -/
def reset (s : EngineState) : EngineState :=
  { s with grid := s.initialGrid, pencilMarks := fun _ _ => ∅ }

/-- generator.js isValidPlacement: identical scans to the solver legality
check of sudoku.js. -/
def isValidPlacement (g : Grid) (row col num : Nat) : Bool :=
  ((List.range 9).all fun x => !(g row x == num)) &&
  ((List.range 9).all fun x => !(g x col == num)) &&
  ((List.range 3).all fun i => (List.range 3).all fun j =>
    !(g (row / 3 * 3 + i) (col / 3 * 3 + j) == num))

/-- generator.js fillGrid: backtracking filler; at each call the candidate
digits are freshly shuffled, modelled by the oracle shuffle (each call of the
search receives a distinct grid, so a grid-indexed oracle captures every
possible sequence of shuffles).  Embedded with fuel like the solver. -/
def fillGrid (shuffle : Grid → List Nat) : Nat → Grid → Option Grid
  | 0, g => if (firstEmpty g).isNone then some g else none
  | fuel + 1, g =>
    match firstEmpty g with
    | none => some g
    | some p =>
      firstSome
        (fun num =>
          if isValidPlacement g p.1 p.2 num then
            fillGrid shuffle fuel (setCell g p.1 p.2 num)
          else none)
        (shuffle g)

/-- The all-empty grid generateCompletePuzzle starts from. -/
def emptyGrid : Grid := fun _ _ => 0

/-- generator.js generateCompletePuzzle: run the filler on an empty grid and
return the resulting grid (when the filler fails the JS grid is left as the
restored empty grid). -/
def generateCompletePuzzle (shuffle : Grid → List Nat) : Grid :=
  match fillGrid shuffle 81 emptyGrid with
  | some g => g
  | none => emptyGrid

/-- The empty-cell count of the 81 board cells (the counting loop of
generator.js hasUniqueSolution and getPuzzleStats). -/
def emptyCount (g : Grid) : Nat :=
  allPositions.countP fun p => g p.1 p.2 == 0

/-- The clue count of the 81 board cells (non-zero cells). -/
def clueCount (g : Grid) : Nat :=
  allPositions.countP fun p => g p.1 p.2 != 0

/-- generator.js hasUniqueSolution: the documented cheap proxy — accept iff
at most 64 cells are empty. -/
def hasUniqueSolution (puzzle : Grid) : Bool :=
  decide (emptyCount puzzle ≤ 64)

/-- The target clue count drawn by generator.js createPuzzle: the difficulty
falls back to medium when unknown (the settings lookup), and the Math.random
draw Math.floor(Math.random() * 6) is modelled by rand % 6. -/
def targetCluesFor (difficulty : String) (rand : Nat) : Nat :=
  let diff :=
    if difficulty = "easy" ∨ difficulty = "medium" ∨ difficulty = "hard" ∨
        difficulty = "expert" then difficulty
    else "medium"
  if diff = "easy" then rand % 6 + 45
  else if diff = "medium" then rand % 6 + 35
  else if diff = "hard" then rand % 6 + 25
  else rand % 6 + 17

/-- One iteration of the removal loop of generator.js createPuzzle: break
(leave the state unchanged) once the clue counter reached the target,
otherwise tentatively clear the visited cell and keep the removal only when
hasUniqueSolution accepts it, restoring the backed-up value otherwise. -/
def removalStep (target : Nat) (st : Grid × Nat) (pos : Nat × Nat) : Grid × Nat :=
  if st.2 ≤ target then st
  else
    let tentative := setCell st.1 pos.1 pos.2 0
    if hasUniqueSolution tentative then (tentative, st.2 - 1)
    else st

/-- generator.js createPuzzle: resolve the difficulty and the target clue
count, then visit the given positions (the shuffled 81-position list of the
source is modelled by an explicit list) running the removal loop from a copy
of the solution and the clue counter 81. -/
def createPuzzle (solution : Grid) (difficulty : String) (rand : Nat)
    (positions : List (Nat × Nat)) : Grid :=
  (positions.foldl (removalStep (targetCluesFor difficulty rand)) (solution, 81)).1

/-! ### Spec-level vocabulary and concrete scenario states -/

/-- Two cells share a constraint group: same row, same column, or same 3×3
box (box index = ⌊row/3⌋·3 + ⌊col/3⌋). -/
def sameUnit (r c i j : Nat) : Prop :=
  r = i ∨ c = j ∨ (r / 3 = i / 3 ∧ c / 3 = j / 3)

instance (r c i j : Nat) : Decidable (sameUnit r c i j) := by
  unfold sameUnit; infer_instance

/-- Internal consistency of a grid: no two distinct cells of a constraint
group hold the same non-zero value. -/
def validGridProp (g : Grid) : Prop :=
  ∀ p ∈ allPositions, ∀ q ∈ allPositions,
    p ≠ q → sameUnit p.1 p.2 q.1 q.2 → g p.1 p.2 ≠ 0 → g p.1 p.2 ≠ g q.1 q.2

instance (g : Grid) : Decidable (validGridProp g) := by
  unfold validGridProp; infer_instance

/-- sol is a complete valid grid extending g (it agrees with every filled
cell of g). -/
def solvesTo (sol g : Grid) : Prop :=
  (∀ p ∈ allPositions, 1 ≤ sol p.1 p.2 ∧ sol p.1 p.2 ≤ 9) ∧ validGridProp sol ∧
    ∀ p ∈ allPositions, g p.1 p.2 ≠ 0 → sol p.1 p.2 = g p.1 p.2

instance (sol g : Grid) : Decidable (solvesTo sol g) := by
  unfold solvesTo; infer_instance

/-- The values of row r in column order. -/
def rowVals (g : Grid) (r : Nat) : List Nat :=
  (List.range 9).map fun c => g r c

/-- The values of column c in row order. -/
def colVals (g : Grid) (c : Nat) : List Nat :=
  (List.range 9).map fun r => g r c

/-- The values of box b (rows ⌊b/3⌋·3.., columns (b mod 3)·3..). -/
def boxVals (g : Grid) (b : Nat) : List Nat :=
  (List.range 3).flatMap fun i =>
    (List.range 3).map fun j => g (b / 3 * 3 + i) (b % 3 * 3 + j)

/-- The session states reachable from init through the mutating operations
of the engine. -/
inductive Reachable : EngineState → Prop
  | init (puzzle : Grid) (sol : Option Grid) : Reachable (init puzzle sol).2
  | place (s : EngineState) (row col num : Nat) :
      Reachable s → Reachable (placeNumber s row col num).2
  | toggle (s : EngineState) (row col num : Nat) :
      Reachable s → Reachable (togglePencilMark s row col num).2
  | reset (s : EngineState) : Reachable s → Reachable (reset s)

/-- The literal complete grid of Scenario A of the specification. -/
def scenarioAList : List (List Nat) :=
  [[5,3,4,6,7,8,9,1,2],[6,7,2,1,9,5,3,4,8],[1,9,8,3,4,2,5,6,7],
   [8,5,9,7,6,1,4,2,3],[4,2,6,8,5,3,7,9,1],[7,1,3,9,2,4,8,5,6],
   [9,6,1,5,3,7,2,8,4],[2,8,7,4,1,9,6,3,5],[3,4,5,2,8,6,1,7,9]]

/-- Scenario A grid as a Grid. -/
def scenarioAGrid : Grid := gridOfLists scenarioAList

/-- Scenario B grid: Scenario A with cell (8,8) zeroed. -/
def scenarioBGrid : Grid := setCell scenarioAGrid 8 8 0

/-- The session obtained by initializing with the Scenario A grid. -/
def scenarioAState : EngineState := (init scenarioAGrid none).2

/-- The session obtained by initializing with the Scenario B puzzle and the
Scenario A grid as its solution. -/
def scenarioBState : EngineState := (init scenarioBGrid (some scenarioAGrid)).2

/-- A locally consistent but globally unsolvable puzzle: row 0 holds 1..8
with its last cell empty, and a 9 placed at (1,8) starves cell (0,8). -/
def infeasibleGrid : Grid :=
  gridOfLists [[1,2,3,4,5,6,7,8,0],[0,0,0,0,0,0,0,0,9]]

/-- A session whose working grid holds 5 at (0,0) and at (0,4). -/
def conflictState : EngineState :=
  { grid := gridOfLists [[5,0,0,0,5,0,0,0,0]]
    solution := none
    initialGrid := fun _ _ => 0
    pencilMarks := fun _ _ => ∅ }

/-- A session whose working grid is empty except for a 5 at (0,1). -/
def emptyCornerState : EngineState :=
  { grid := gridOfLists [[0,5,0,0,0,0,0,0,0]]
    solution := none
    initialGrid := fun _ _ => 0
    pencilMarks := fun _ _ => ∅ }

/-! ### Basic lemmas about positions, cells and scans -/

theorem mem_allPositions {p : Nat × Nat} : p ∈ allPositions ↔ p.1 < 9 ∧ p.2 < 9 := by
  obtain ⟨a, b⟩ := p
  simp only [allPositions, List.mem_flatMap, List.mem_map, List.mem_range, Prod.mk.injEq]
  constructor
  · rintro ⟨r, hr, c, hc, h1, h2⟩; subst h1; subst h2; exact ⟨hr, hc⟩
  · rintro ⟨h1, h2⟩; exact ⟨a, h1, b, h2, rfl, rfl⟩

theorem allPositions_nodup : allPositions.Nodup := by decide

theorem allPositions_length : allPositions.length = 81 := by decide

theorem setCell_same (g : Grid) (r c v : Nat) : setCell g r c v r c = v := by
  simp [setCell]

theorem setCell_other (g : Grid) {i j r c : Nat} (v : Nat) (h : ¬(i = r ∧ j = c)) :
    setCell g r c v i j = g i j := by
  simp [setCell, h]

theorem mem_rowCells {i j row : Nat} : (i, j) ∈ rowCells row ↔ i = row ∧ j < 9 := by
  simp only [rowCells, List.mem_map, List.mem_range, Prod.mk.injEq]
  constructor
  · rintro ⟨x, hx, h1, h2⟩; subst h1; subst h2; exact ⟨rfl, hx⟩
  · rintro ⟨h1, h2⟩; exact ⟨j, h2, h1.symm, rfl⟩

theorem mem_colCells {i j col : Nat} : (i, j) ∈ colCells col ↔ j = col ∧ i < 9 := by
  simp only [colCells, List.mem_map, List.mem_range, Prod.mk.injEq]
  constructor
  · rintro ⟨x, hx, h1, h2⟩; subst h1; subst h2; exact ⟨rfl, hx⟩
  · rintro ⟨h1, h2⟩; exact ⟨i, h2, rfl, h1.symm⟩

theorem mem_boxCells {i j row col : Nat} :
    (i, j) ∈ boxCells row col ↔ i / 3 = row / 3 ∧ j / 3 = col / 3 := by
  simp only [boxCells, List.mem_flatMap, List.mem_map, List.mem_range, Prod.mk.injEq]
  constructor
  · rintro ⟨a, ha, b, hb, h1, h2⟩; omega
  · rintro ⟨h1, h2⟩
    refine ⟨i % 3, by omega, j % 3, by omega, by omega, by omega⟩

theorem mem_nineList {n : Nat} : n ∈ nineList ↔ 1 ≤ n ∧ n ≤ 9 := by
  simp only [nineList, List.mem_cons, List.not_mem_nil, or_false]
  omega

/-! ### Pencil-mark fold lemmas -/

theorem pencil_foldl (num : Nat) (l : List (Nat × Nat)) :
    ∀ (s : EngineState) (i j : Nat),
      ((l.foldl (fun t p => removePencilMark t p.1 p.2 num) s).pencilMarks i j) =
        if (i, j) ∈ l then (s.pencilMarks i j).erase num else s.pencilMarks i j := by
  induction l with
  | nil => intro s i j; simp
  | cons p l ih =>
    intro s i j
    obtain ⟨p1, p2⟩ := p
    rw [List.foldl_cons, ih]
    by_cases h1 : i = p1 ∧ j = p2
    · obtain ⟨rfl, rfl⟩ := h1
      by_cases h2 : (i, j) ∈ l <;>
        simp [removePencilMark, h2, List.mem_cons, Finset.erase_idem]
    · by_cases h2 : (i, j) ∈ l <;>
        simp [removePencilMark, h1, h2, List.mem_cons, Prod.mk.injEq]

theorem pencil_foldl_fields (num : Nat) (l : List (Nat × Nat)) :
    ∀ s : EngineState,
      (l.foldl (fun t p => removePencilMark t p.1 p.2 num) s).grid = s.grid ∧
      (l.foldl (fun t p => removePencilMark t p.1 p.2 num) s).solution = s.solution ∧
      (l.foldl (fun t p => removePencilMark t p.1 p.2 num) s).initialGrid = s.initialGrid := by
  induction l with
  | nil => intro s; exact ⟨rfl, rfl, rfl⟩
  | cons p l ih =>
    intro s
    rw [List.foldl_cons]
    exact ih (removePencilMark s p.1 p.2 num)

theorem updatePencilMarks_marks (s : EngineState) (row col num i j : Nat) :
    (updatePencilMarks s row col num).pencilMarks i j =
      if (i, j) ∈ rowCells row ∨ (i, j) ∈ colCells col ∨ (i, j) ∈ boxCells row col
      then (s.pencilMarks i j).erase num else s.pencilMarks i j := by
  unfold updatePencilMarks
  rw [pencil_foldl, pencil_foldl, pencil_foldl]
  by_cases h1 : (i, j) ∈ rowCells row <;>
    by_cases h2 : (i, j) ∈ colCells col <;>
      by_cases h3 : (i, j) ∈ boxCells row col <;>
        simp [h1, h2, h3, Finset.erase_idem]

theorem updatePencilMarks_fields (s : EngineState) (row col num : Nat) :
    (updatePencilMarks s row col num).grid = s.grid ∧
    (updatePencilMarks s row col num).solution = s.solution ∧
    (updatePencilMarks s row col num).initialGrid = s.initialGrid := by
  unfold updatePencilMarks
  refine ⟨?_, ?_, ?_⟩ <;>
    simp [(pencil_foldl_fields num _ _).1, (pencil_foldl_fields num _ _).2.1,
      (pencil_foldl_fields num _ _).2.2]

/-! ### Solver / filler search lemmas -/

theorem isValidPlacement_iff {g : Grid} {r c n : Nat} (hr : r < 9) (hc : c < 9) :
    isValidPlacement g r c n = true ↔
      ∀ q ∈ allPositions, sameUnit r c q.1 q.2 → g q.1 q.2 ≠ n := by
  unfold isValidPlacement
  simp only [Bool.and_eq_true, List.all_eq_true, List.mem_range, Bool.not_eq_true',
    beq_eq_false_iff_ne, ne_eq]
  constructor
  · rintro ⟨⟨h1, h2⟩, h3⟩ ⟨a, b⟩ hq hs
    rw [mem_allPositions] at hq
    obtain ⟨ha, hb⟩ := hq
    rcases hs with h | h | ⟨hb1, hb2⟩
    · subst h; exact h1 b hb
    · subst h; exact h2 a ha
    · have e1 : r / 3 * 3 + a % 3 = a := by omega
      have e2 : c / 3 * 3 + b % 3 = b := by omega
      have := h3 (a % 3) (by omega) (b % 3) (by omega)
      rw [e1, e2] at this
      exact this
  · intro H
    refine ⟨⟨?_, ?_⟩, ?_⟩
    · intro x hx
      exact H (r, x) (mem_allPositions.mpr ⟨hr, hx⟩) (Or.inl rfl)
    · intro x hx
      exact H (x, c) (mem_allPositions.mpr ⟨hx, hc⟩) (Or.inr (Or.inl rfl))
    · intro i hi j hj
      refine H (r / 3 * 3 + i, c / 3 * 3 + j)
        (mem_allPositions.mpr ⟨by omega, by omega⟩) (Or.inr (Or.inr ⟨by omega, by omega⟩))

theorem sameUnit_symm {r c i j : Nat} (h : sameUnit r c i j) : sameUnit i j r c := by
  unfold sameUnit at h ⊢
  omega

theorem sameUnit_refl (r c : Nat) : sameUnit r c r c := Or.inl rfl

theorem firstSome_isSome_of_mem {f : Nat → Option Grid} {l : List Nat} {n : Nat}
    (hn : n ∈ l) (hf : (f n).isSome) : (firstSome f l).isSome := by
  induction l with
  | nil => cases hn
  | cons a l ih =>
    rw [firstSome]
    cases ha : f a with
    | some g => simp
    | none =>
      rcases List.mem_cons.mp hn with rfl | hmem
      · rw [ha] at hf; cases hf
      · exact ih hmem

theorem firstSome_eq_some {f : Nat → Option Grid} {l : List Nat} {g : Grid}
    (h : firstSome f l = some g) : ∃ n ∈ l, f n = some g := by
  induction l with
  | nil => cases h
  | cons a l ih =>
    rw [firstSome] at h
    cases ha : f a with
    | some g' =>
      rw [ha] at h
      exact ⟨a, List.mem_cons_self a l, ha.trans h⟩
    | none =>
      rw [ha] at h
      obtain ⟨n, hn, hfn⟩ := ih h
      exact ⟨n, List.mem_cons_of_mem a hn, hfn⟩

theorem firstEmpty_eq_none {g : Grid} :
    firstEmpty g = none ↔ ∀ p ∈ allPositions, g p.1 p.2 ≠ 0 := by
  unfold firstEmpty
  rw [List.find?_eq_none]
  constructor
  · intro h p hp
    have := h p hp
    simpa using this
  · intro h p hp
    simpa using h p hp

theorem firstEmpty_eq_some {g : Grid} {p : Nat × Nat} (h : firstEmpty g = some p) :
    p ∈ allPositions ∧ g p.1 p.2 = 0 := by
  unfold firstEmpty at h
  refine ⟨List.mem_of_find?_eq_some h, ?_⟩
  have := List.find?_some h
  simpa using this

/-! ### Counting lemmas -/

theorem countP_congr_on {α : Type} {l : List α} {p q : α → Bool}
    (h : ∀ a ∈ l, p a = q a) : l.countP p = l.countP q := by
  induction l with
  | nil => rfl
  | cons a l ih =>
    rw [List.countP_cons, List.countP_cons, h a (List.mem_cons_self a l),
      ih fun b hb => h b (List.mem_cons_of_mem a hb)]

theorem countP_pointwise_lt {α : Type} [DecidableEq α] {l : List α} {x : α}
    (hnd : l.Nodup) (hx : x ∈ l) {p q : α → Bool}
    (hpx : p x = true) (hqx : q x = false)
    (hagree : ∀ y ∈ l, y ≠ x → q y = p y) : l.countP q < l.countP p := by
  induction l with
  | nil => cases hx
  | cons a l ih =>
    rw [List.countP_cons, List.countP_cons]
    by_cases hax : x = a
    · subst hax
      have heq : l.countP q = l.countP p := by
        refine countP_congr_on fun b hb => ?_
        have hbx : b ≠ x := fun e => (List.nodup_cons.mp hnd).1 (e ▸ hb)
        exact hagree b (List.mem_cons_of_mem x hb) hbx
      rw [heq]
      simp [hpx, hqx]
    · have hmem : x ∈ l := by
        rcases List.mem_cons.mp hx with h | h
        · exact absurd h hax
        · exact h
      have ha : q a = p a := hagree a (List.mem_cons_self a l) fun e => hax e.symm
      have hlt := ih (List.nodup_cons.mp hnd).2 hmem
        fun y hy hyx => hagree y (List.mem_cons_of_mem a hy) hyx
      rw [ha]
      exact Nat.add_lt_add_right hlt _

theorem emptyCount_setCell_lt {g : Grid} {r c n : Nat}
    (hp : (r, c) ∈ allPositions) (h0 : g r c = 0) (hn : n ≠ 0) :
    emptyCount (setCell g r c n) < emptyCount g := by
  unfold emptyCount
  refine countP_pointwise_lt allPositions_nodup hp ?_ ?_ ?_
  · simpa using h0
  · simp only [beq_eq_false_iff_ne, ne_eq]
    rw [setCell_same]
    exact hn
  · rintro ⟨a, b⟩ hab hne
    have : ¬(a = r ∧ b = c) := by
      intro ⟨e1, e2⟩; exact hne (by rw [e1, e2])
    simp only [setCell_other g n this]

theorem emptyCount_eq_zero {g : Grid}
    (h : ∀ p ∈ allPositions, g p.1 p.2 ≠ 0) : emptyCount g = 0 := by
  unfold emptyCount
  rw [List.countP_eq_zero]
  intro p hp
  simpa using h p hp

theorem countP_not_add_countP {α : Type} (p : α → Bool) (l : List α) :
    l.countP (fun a => !p a) + l.countP p = l.length := by
  induction l with
  | nil => rfl
  | cons a l ih =>
    rw [List.countP_cons, List.countP_cons, List.length_cons]
    cases h : p a <;> simp [h] <;> omega

theorem clueCount_add_emptyCount (g : Grid) : clueCount g + emptyCount g = 81 := by
  have h := countP_not_add_countP (fun p : Nat × Nat => g p.1 p.2 == 0) allPositions
  rw [allPositions_length] at h
  exact h

/-! ### Validity preservation and correctness of the backtracking filler -/

theorem validGridProp_setCell {g : Grid} {r c n : Nat}
    (hg : validGridProp g) (hp : (r, c) ∈ allPositions) (hv : isValidPlacement g r c n = true) :
    validGridProp (setCell g r c n) := by
  have hr : r < 9 := (mem_allPositions.mp hp).1
  have hc : c < 9 := (mem_allPositions.mp hp).2
  have hval := (isValidPlacement_iff hr hc).mp hv
  rintro ⟨a, b⟩ hab ⟨a2, b2⟩ hab2 hne hsu hnz
  by_cases h1 : a = r ∧ b = c
  · obtain ⟨rfl, rfl⟩ := h1
    by_cases h2 : a2 = a ∧ b2 = b
    · obtain ⟨rfl, rfl⟩ := h2
      exact absurd rfl hne
    · rw [setCell_same] at hnz ⊢
      rw [setCell_other g n h2]
      intro e
      exact hval (a2, b2) hab2 hsu e.symm
  · rw [setCell_other g n h1] at hnz ⊢
    by_cases h2 : a2 = r ∧ b2 = c
    · obtain ⟨rfl, rfl⟩ := h2
      rw [setCell_same]
      exact hval (a, b) hab (sameUnit_symm hsu)
    · rw [setCell_other g n h2]
      exact hg _ hab _ hab2 hne hsu hnz

theorem solvesTo_extend {sol g : Grid} {r c : Nat}
    (hs : solvesTo sol g) (hp : (r, c) ∈ allPositions) (h0 : g r c = 0) :
    isValidPlacement g r c (sol r c) = true ∧
      solvesTo sol (setCell g r c (sol r c)) := by
  obtain ⟨hrange, hvalid, hagree⟩ := hs
  have hr : r < 9 := (mem_allPositions.mp hp).1
  have hc : c < 9 := (mem_allPositions.mp hp).2
  have hleg : isValidPlacement g r c (sol r c) = true := by
    rw [isValidPlacement_iff hr hc]
    intro q hq hsu e
    have hsol1 : 1 ≤ sol r c := (hrange (r, c) hp).1
    have hnz : g q.1 q.2 ≠ 0 := by omega
    have heq : sol q.1 q.2 = g q.1 q.2 := hagree q hq hnz
    have hne : q ≠ (r, c) := by
      intro h
      rw [h] at hnz
      exact hnz h0
    have hzz : sol q.1 q.2 ≠ 0 := by omega
    have hrc : sol q.1 q.2 = sol (r, c).1 (r, c).2 := show sol q.1 q.2 = sol r c by omega
    exact hvalid q hq (r, c) hp hne (sameUnit_symm hsu) hzz hrc
  refine ⟨hleg, hrange, hvalid, ?_⟩
  intro q hq hnz
  by_cases h1 : q.1 = r ∧ q.2 = c
  · have : setCell g r c (sol r c) q.1 q.2 = sol r c := by
      rw [h1.1, h1.2, setCell_same]
    rw [this, h1.1, h1.2]
  · rw [setCell_other g _ h1] at hnz ⊢
    exact hagree q hq hnz

theorem emptyCount_eq_zero_forall {g : Grid} (h : emptyCount g = 0) :
    ∀ p ∈ allPositions, g p.1 p.2 ≠ 0 := by
  intro p hp
  have := List.countP_eq_zero.mp h p hp
  simpa using this

theorem fillGrid_isSome {shuffle : Grid → List Nat}
    (hsh : ∀ g, (shuffle g).Perm nineList) :
    ∀ (fuel : Nat) (g sol : Grid), solvesTo sol g → emptyCount g ≤ fuel →
      (fillGrid shuffle fuel g).isSome = true := by
  intro fuel
  induction fuel with
  | zero =>
    intro g sol hs hf
    rw [fillGrid]
    have hz : emptyCount g = 0 := Nat.le_zero.mp hf
    have hfe : firstEmpty g = none :=
      firstEmpty_eq_none.mpr (emptyCount_eq_zero_forall hz)
    simp [hfe]
  | succ fuel ih =>
    intro g sol hs hf
    rw [fillGrid]
    cases hfe : firstEmpty g with
    | none => simp
    | some p =>
      obtain ⟨p1, p2⟩ := p
      obtain ⟨hp, h0⟩ := firstEmpty_eq_some hfe
      obtain ⟨hleg, hs2⟩ := solvesTo_extend hs hp h0
      have hsol9 : 1 ≤ sol p1 p2 ∧ sol p1 p2 ≤ 9 := hs.1 (p1, p2) hp
      have hmem : sol p1 p2 ∈ shuffle g :=
        ((hsh g).mem_iff).mpr (mem_nineList.mpr hsol9)
      apply firstSome_isSome_of_mem hmem
      rw [if_pos hleg]
      have hlt : emptyCount (setCell g p1 p2 (sol p1 p2)) < emptyCount g :=
        emptyCount_setCell_lt hp h0 (by omega)
      exact ih (setCell g p1 p2 (sol p1 p2)) sol hs2 (by omega)

theorem fillGrid_sound {shuffle : Grid → List Nat}
    (hsh : ∀ g, (shuffle g).Perm nineList) :
    ∀ (fuel : Nat) (g g' : Grid), validGridProp g →
      (∀ p ∈ allPositions, g p.1 p.2 ≤ 9) →
      fillGrid shuffle fuel g = some g' →
      validGridProp g' ∧ ∀ p ∈ allPositions, 1 ≤ g' p.1 p.2 ∧ g' p.1 p.2 ≤ 9 := by
  intro fuel
  induction fuel with
  | zero =>
    intro g g' hv hb h
    rw [fillGrid] at h
    by_cases hfe : (firstEmpty g).isNone
    · rw [if_pos hfe] at h
      obtain rfl := Option.some.inj h
      refine ⟨hv, fun p hp => ?_⟩
      have := firstEmpty_eq_none.mp (Option.isNone_iff_eq_none.mp hfe) p hp
      exact ⟨by omega, hb p hp⟩
    · rw [if_neg hfe] at h
      cases h
  | succ fuel ih =>
    intro g g' hv hb h
    rw [fillGrid] at h
    cases hfe : firstEmpty g with
    | none =>
      rw [hfe] at h
      obtain rfl := Option.some.inj h
      refine ⟨hv, fun p hp => ?_⟩
      have := firstEmpty_eq_none.mp hfe p hp
      exact ⟨by omega, hb p hp⟩
    | some p =>
      rw [hfe] at h
      obtain ⟨p1, p2⟩ := p
      obtain ⟨hp, h0⟩ := firstEmpty_eq_some hfe
      obtain ⟨n, hn, hfn⟩ := firstSome_eq_some h
      by_cases hleg : isValidPlacement g p1 p2 n = true
      · rw [if_pos hleg] at hfn
        have hn9 : 1 ≤ n ∧ n ≤ 9 := mem_nineList.mp (((hsh g).mem_iff).mp hn)
        have hv2 : validGridProp (setCell g p1 p2 n) := validGridProp_setCell hv hp hleg
        have hb2 : ∀ q ∈ allPositions, setCell g p1 p2 n q.1 q.2 ≤ 9 := by
          rintro ⟨a, b⟩ hq
          by_cases h1 : a = p1 ∧ b = p2
          · obtain ⟨rfl, rfl⟩ := h1
            rw [setCell_same]
            exact hn9.2
          · rw [setCell_other g n h1]
            exact hb (a, b) hq
        exact ih _ _ hv2 hb2 hfn
      · rw [if_neg hleg] at hfn
        cases hfn

/-! ### A complete valid grid has every constraint group a permutation of 1..9 -/

theorem unitVals_perm {g : Grid} (cells : List (Nat × Nat))
    (hnd : cells.Nodup) (hlen : cells.length = 9)
    (hmem : ∀ p ∈ cells, p ∈ allPositions)
    (hunit : ∀ p ∈ cells, ∀ q ∈ cells, p ≠ q → sameUnit p.1 p.2 q.1 q.2)
    (hv : validGridProp g)
    (hrange : ∀ p ∈ allPositions, 1 ≤ g p.1 p.2 ∧ g p.1 p.2 ≤ 9) :
    (cells.map fun p => g p.1 p.2).Perm nineList := by
  have hinj : ∀ p ∈ cells, ∀ q ∈ cells, g p.1 p.2 = g q.1 q.2 → p = q := by
    intro p hp q hq he
    by_contra hne
    have h1 := (hrange p (hmem p hp)).1
    exact hv p (hmem p hp) q (hmem q hq) hne (hunit p hp q hq hne) (by omega) he
  have hnd2 : (cells.map fun p => g p.1 p.2).Nodup := List.Nodup.map_on hinj hnd
  have hnine_nd : nineList.Nodup := by decide
  apply List.perm_of_nodup_nodup_toFinset_eq hnd2 hnine_nd
  apply Finset.eq_of_subset_of_card_le
  · intro v hv3
    rw [List.mem_toFinset] at hv3 ⊢
    obtain ⟨p, hp, rfl⟩ := List.mem_map.mp hv3
    exact mem_nineList.mpr (hrange p (hmem p hp))
  · rw [List.toFinset_card_of_nodup hnd2, List.toFinset_card_of_nodup hnine_nd,
      List.length_map, hlen]
    decide

theorem rowCells_nodup (row : Nat) : (rowCells row).Nodup := by
  refine List.Nodup.map_on ?_ (List.nodup_range 9)
  intro x _ y _ h
  exact congrArg Prod.snd h

theorem colCells_nodup (col : Nat) : (colCells col).Nodup := by
  refine List.Nodup.map_on ?_ (List.nodup_range 9)
  intro x _ y _ h
  exact congrArg Prod.fst h

theorem boxCells_nodup (row col : Nat) : (boxCells row col).Nodup := by
  rw [boxCells, List.nodup_flatMap]
  constructor
  · intro i _
    refine List.Nodup.map_on ?_ (List.nodup_range 3)
    intro x _ y _ h
    have h2 : col / 3 * 3 + x = col / 3 * 3 + y := congrArg Prod.snd h
    omega
  · refine List.Pairwise.imp ?_ (List.nodup_range 3)
    intro i j hij
    simp only [Function.onFun]
    intro a ha hb
    simp only [List.mem_map, List.mem_range] at ha hb
    obtain ⟨x, hx, hxa⟩ := ha
    obtain ⟨y, hy, hyb⟩ := hb
    have h1 : row / 3 * 3 + i = row / 3 * 3 + j :=
      congrArg Prod.fst (hxa.trans hyb.symm)
    omega

theorem rowCells_length (row : Nat) : (rowCells row).length = 9 := rfl

theorem colCells_length (col : Nat) : (colCells col).length = 9 := rfl

theorem boxCells_length (row col : Nat) : (boxCells row col).length = 9 := rfl

/-! ### Claim theorems -/

/-- C1: initializing with the literal complete Scenario A grid (all 81 cells
given) should report Solved immediately; the code does not.  The grid is
fully filled and internally consistent cell-by-cell, yet isSolved returns
false, because isValidSolution re-checks every cell through isValidMove,
whose given-cell guard (initialGrid non-zero) rejects every given cell. -/
theorem c1_scenarioA_not_solved :
    (∀ p ∈ allPositions, scenarioAState.grid p.1 p.2 ≠ 0) ∧
    validGridProp scenarioAState.grid ∧
    isSolved scenarioAState = false := by
  refine ⟨by decide, by decide, by decide⟩

/-- C2 counterexample: on a locally consistent but unsolvable puzzle, init
without a supplied solution does not fail — it returns true (success) while
the solver reported infeasibility, and silently stores a null solution. -/
theorem c2_counterexample :
    (init infeasibleGrid none).1 = true ∧
    (solvePuzzle infeasibleGrid).isNone = true ∧
    ((init infeasibleGrid none).2.solution).isNone = true := by
  refine ⟨rfl, by decide, by decide⟩

/-- C2 amended: init with an omitted solution always reports success (returns
true); when the solver finds the puzzle infeasible the session is still
accepted, with the stored solution silently set to null. -/
theorem c2_init_silent (puzzle : Grid) :
    (init puzzle none).1 = true ∧
    (solvePuzzle puzzle = none → (init puzzle none).2.solution = none) := by
  refine ⟨rfl, fun h => h⟩

/-- C2 witness: the amended statement at the concrete infeasible grid. -/
theorem c2_witness :
    (init infeasibleGrid none).1 = true ∧
    (init infeasibleGrid none).2.solution = none :=
  ⟨(c2_init_silent infeasibleGrid).1,
   (c2_init_silent infeasibleGrid).2 (Option.isNone_iff_eq_none.mp (by decide))⟩

/-- C7: every rejected placeNumber call is atomic and surfaced as a
structured failure: a given cell is rejected with the given-cell reason, an
illegal non-zero value on a non-given cell with the illegal-placement
reason, and in both cases the state (grid and pencil marks) is returned
exactly as it was. -/
theorem c7_placeNumber_rejections (s : EngineState) (row col num : Nat) :
    (s.initialGrid row col ≠ 0 →
      placeNumber s row col num =
        ({ success := false, error := some "Cannot modify given numbers" }, s)) ∧
    (s.initialGrid row col = 0 → num ≠ 0 → isValidMove s row col num = false →
      placeNumber s row col num =
        ({ success := false, error := some "Invalid move" }, s)) := by
  constructor
  · intro h
    rw [placeNumber, if_pos h]
  · intro h h0 hv
    simp [placeNumber, h, h0, hv]

/-- C7 witness: Scenario C (given cell (0,0)) and Scenario D (illegal 5 at
(8,8)) on the Scenario B session. -/
theorem c7_witness :
    placeNumber scenarioBState 0 0 3 =
      ({ success := false, error := some "Cannot modify given numbers" }, scenarioBState) ∧
    placeNumber scenarioBState 8 8 5 =
      ({ success := false, error := some "Invalid move" }, scenarioBState) :=
  ⟨(c7_placeNumber_rejections scenarioBState 0 0 3).1 (by decide),
   (c7_placeNumber_rejections scenarioBState 8 8 5).2 (by decide) (by decide) (by decide)⟩

/-- C3 counterexample: when the probed cell does not currently hold the
value, getConflictingCells returns the empty list even though another cell
of the same row does hold the value — so the claimed characterization,
which is supposed to hold regardless of the probed cell's own content,
fails at this concrete state and input. -/
theorem c3_counterexample :
    ¬((((0 : Nat), (1 : Nat)) ∈ getConflictingCells emptyCornerState 0 0 5) ↔
      (((0 : Nat), (1 : Nat)) ≠ ((0 : Nat), (0 : Nat)) ∧ (0 : Nat) < 9 ∧ (1 : Nat) < 9 ∧
        sameUnit 0 0 0 1 ∧ emptyCornerState.grid 0 1 = 5)) := by
  decide

/-- C3 amended: when the probed cell currently holds the value (the only
case in which the guard of getConflictingCells lets the scans run), the
returned list contains exactly the other cells of the same row, column or
box holding that value. -/
theorem c3_conflicts_characterization (s : EngineState) (row col num : Nat)
    (hr : row < 9) (hc : col < 9) (h1 : 1 ≤ num)
    (hcur : s.grid row col = num) (p : Nat × Nat) :
    p ∈ getConflictingCells s row col num ↔
      (p ≠ (row, col) ∧ p.1 < 9 ∧ p.2 < 9 ∧ sameUnit row col p.1 p.2 ∧
        s.grid p.1 p.2 = num) := by
  have hguard : ¬(s.grid row col = 0 ∨ s.grid row col ≠ num) := by omega
  rw [getConflictingCells, if_neg hguard]
  simp only [List.mem_append, List.mem_filterMap, List.mem_range,
    Option.ite_none_right_eq_some, Option.some.injEq]
  constructor
  · rintro ((⟨x, hx, ⟨hxc, hval⟩, rfl⟩ | ⟨x, hx, ⟨hxr, hval⟩, rfl⟩) |
      ⟨q, hq, ⟨hqne, hval⟩, rfl⟩)
    · exact ⟨by simp [Prod.ext_iff]; omega, by omega, by omega, Or.inl rfl, hval⟩
    · exact ⟨by simp [Prod.ext_iff]; omega, by omega, by omega, Or.inr (Or.inl rfl), hval⟩
    · have hbx := (mem_boxCells (i := q.1) (j := q.2)).mp (by simpa using hq)
      refine ⟨hqne, by omega, by omega, Or.inr (Or.inr ⟨hbx.1.symm, hbx.2.symm⟩), hval⟩
  · rintro ⟨hne, hp1, hp2, hsu, hval⟩
    rcases hsu with h | h | ⟨hb1, hb2⟩
    · refine Or.inl (Or.inl ⟨p.2, hp2, ⟨?_, ?_⟩, ?_⟩)
      · intro e
        exact hne (by rw [Prod.ext_iff]; omega)
      · rw [h]
        exact hval
      · rw [Prod.ext_iff]
        omega
    · refine Or.inl (Or.inr ⟨p.1, hp1, ⟨?_, ?_⟩, ?_⟩)
      · intro e
        exact hne (by rw [Prod.ext_iff]; omega)
      · rw [h]
        exact hval
      · rw [Prod.ext_iff]
        omega
    · refine Or.inr ⟨p, ?_, ⟨hne, hval⟩, rfl⟩
      have : (p.1, p.2) ∈ boxCells row col := mem_boxCells.mpr ⟨hb1.symm, hb2.symm⟩
      simpa using this

/-- C3 witness: the amended characterization at a concrete session holding 5
at (0,0) and (0,4): the row conflict (0,4) is reported. -/
theorem c3_witness :
    (((0 : Nat), (4 : Nat)) ∈ getConflictingCells conflictState 0 0 5) ↔
      (((0 : Nat), (4 : Nat)) ≠ ((0 : Nat), (0 : Nat)) ∧ (0 : Nat) < 9 ∧ (4 : Nat) < 9 ∧
        sameUnit 0 0 0 4 ∧ conflictState.grid 0 4 = 5) :=
  c3_conflicts_characterization conflictState 0 0 5 (by decide) (by decide) (by decide)
    (by decide) (0, 4)

/-- An invariant preserved by every step of a fold holds at its end. -/
theorem foldl_preserve {α σ : Type} (f : σ → α → σ) (P : σ → Prop)
    (h : ∀ s a, P s → P (f s a)) : ∀ (l : List α) (s : σ), P s → P (l.foldl f s) := by
  intro l
  induction l with
  | nil => intro s hs; exact hs
  | cons a l ih =>
    intro s hs
    exact ih (f s a) (h s a hs)

/-- Each removal-loop step only clears cells or leaves them alone, so every
cell either is 0 or still holds its value from the solution. -/
theorem removalStep_cell_invariant (solution : Grid) (target : Nat)
    (st : Grid × Nat) (pos : Nat × Nat)
    (hst : ∀ a b, st.1 a b ≠ 0 → st.1 a b = solution a b) :
    ∀ a b, (removalStep target st pos).1 a b ≠ 0 →
      (removalStep target st pos).1 a b = solution a b := by
  intro a b hab
  rw [removalStep] at hab ⊢
  by_cases hbreak : st.2 ≤ target
  · rw [if_pos hbreak] at hab ⊢
    exact hst a b hab
  · rw [if_neg hbreak] at hab ⊢
    by_cases hu : hasUniqueSolution (setCell st.1 pos.1 pos.2 0)
    · rw [if_pos hu] at hab ⊢
      dsimp only at hab ⊢
      by_cases h1 : a = pos.1 ∧ b = pos.2
      · obtain ⟨rfl, rfl⟩ := h1
        rw [setCell_same] at hab
        exact absurd rfl hab
      · rw [setCell_other _ _ h1] at hab ⊢
        exact hst a b hab
    · rw [if_neg hu] at hab ⊢
      exact hst a b hab

/-- Each removal-loop step keeps the empty-cell count at or below 64: a
removal is only accepted when hasUniqueSolution accepts the cleared grid. -/
theorem removalStep_emptyCount (target : Nat) (st : Grid × Nat) (pos : Nat × Nat)
    (hst : emptyCount st.1 ≤ 64) : emptyCount (removalStep target st pos).1 ≤ 64 := by
  rw [removalStep]
  by_cases hbreak : st.2 ≤ target
  · rw [if_pos hbreak]
    exact hst
  · rw [if_neg hbreak]
    by_cases hu : hasUniqueSolution (setCell st.1 pos.1 pos.2 0)
    · rw [if_pos hu]
      exact of_decide_eq_true hu
    · rw [if_neg hu]
      exact hst

/-- C5: every non-zero (given) cell of a puzzle produced by createPuzzle
equals the corresponding cell of the solution it was derived from, for every
difficulty, random draw and visiting order: removals either leave a cell at
0 or restore its original value, and no cell is rewritten to another digit. -/
theorem c5_givens_match_solution (solution : Grid) (difficulty : String)
    (rand : Nat) (positions : List (Nat × Nat)) (r c : Nat)
    (h : createPuzzle solution difficulty rand positions r c ≠ 0) :
    createPuzzle solution difficulty rand positions r c = solution r c := by
  have key := foldl_preserve (removalStep (targetCluesFor difficulty rand))
    (fun st => ∀ a b, st.1 a b ≠ 0 → st.1 a b = solution a b)
    (fun st pos hst => removalStep_cell_invariant solution _ st pos hst)
    positions (solution, 81) (fun a b _ => rfl)
  exact key r c h

/-- C5 witness: the theorem at a concrete input (no removals visited). -/
theorem c5_witness :
    createPuzzle scenarioAGrid "easy" 0 [] 0 0 = scenarioAGrid 0 0 :=
  c5_givens_match_solution scenarioAGrid "easy" 0 [] 0 0 (by decide)

/-- C6: starting from a complete solution grid, the puzzle produced by
createPuzzle — for every difficulty, random draw and visiting order, hence
at every step of the removal loop — has at most 64 empty cells, so its clue
count stays between 17 and 81: a tentative removal that would exceed 64
empty cells is rejected and the original value restored. -/
theorem c6_clue_floor (solution : Grid) (difficulty : String) (rand : Nat)
    (positions : List (Nat × Nat))
    (hcomplete : ∀ p ∈ allPositions, solution p.1 p.2 ≠ 0) :
    emptyCount (createPuzzle solution difficulty rand positions) ≤ 64 ∧
    17 ≤ clueCount (createPuzzle solution difficulty rand positions) ∧
    clueCount (createPuzzle solution difficulty rand positions) ≤ 81 := by
  have inv : emptyCount (createPuzzle solution difficulty rand positions) ≤ 64 := by
    have key := foldl_preserve (removalStep (targetCluesFor difficulty rand))
      (fun st => emptyCount st.1 ≤ 64)
      (fun st pos hst => removalStep_emptyCount _ st pos hst)
      positions (solution, 81)
      (show emptyCount solution ≤ 64 by rw [emptyCount_eq_zero hcomplete]; omega)
    exact key
  have hsum := clueCount_add_emptyCount (createPuzzle solution difficulty rand positions)
  exact ⟨inv, by omega, by omega⟩

/-- C6 witness: the theorem at the Scenario A solution with the full
row-major visiting order and an expert draw. -/
theorem c6_witness :
    emptyCount (createPuzzle scenarioAGrid "expert" 0 allPositions) ≤ 64 ∧
    17 ≤ clueCount (createPuzzle scenarioAGrid "expert" 0 allPositions) ∧
    clueCount (createPuzzle scenarioAGrid "expert" 0 allPositions) ≤ 81 :=
  c6_clue_floor scenarioAGrid "expert" 0 allPositions (by decide)

/-- C8: after every successful commit of a value num in 1..9 at (row, col):
the committed cell's pencil-mark set is empty, num is absent from the mark
set of every cell sharing the row, column or box, no mark is ever added,
mark sets of cells outside the row/column/box are unchanged, and for every
cell other than the committed one the marks for digits other than num are
unchanged (the committed cell itself has its whole set cleared). -/
theorem c8_pencil_prune (s : EngineState) (row col num : Nat)
    (hr : row < 9) (hc : col < 9) (h1 : 1 ≤ num)
    (hsucc : (placeNumber s row col num).1.success = true) :
    (placeNumber s row col num).2.pencilMarks row col = ∅ ∧
    (∀ i j, i < 9 → j < 9 → sameUnit row col i j →
      num ∉ (placeNumber s row col num).2.pencilMarks i j) ∧
    (∀ i j m, m ∈ (placeNumber s row col num).2.pencilMarks i j →
      m ∈ s.pencilMarks i j) ∧
    (∀ i j, i < 9 → j < 9 → ¬sameUnit row col i j →
      (placeNumber s row col num).2.pencilMarks i j = s.pencilMarks i j) ∧
    (∀ i j m, (i, j) ≠ (row, col) → m ≠ num →
      (m ∈ (placeNumber s row col num).2.pencilMarks i j ↔ m ∈ s.pencilMarks i j)) := by
  have hnum0 : ¬(num = 0) := by omega
  by_cases hgiven : s.initialGrid row col ≠ 0
  · rw [placeNumber, if_pos hgiven] at hsucc
    simp at hsucc
  by_cases hvm : isValidMove s row col num
  case neg =>
    rw [placeNumber, if_neg hgiven, if_neg hnum0, if_neg hvm] at hsucc
    simp at hsucc
  have hstate : (placeNumber s row col num).2 =
      updatePencilMarks
        (clearPencilMarksForCell { s with grid := setCell s.grid row col num } row col)
        row col num := by
    rw [placeNumber, if_neg hgiven, if_neg hnum0, if_pos hvm]
  have hmarks : ∀ i j, (placeNumber s row col num).2.pencilMarks i j =
      if (i, j) ∈ rowCells row ∨ (i, j) ∈ colCells col ∨ (i, j) ∈ boxCells row col
      then ((if i = row ∧ j = col then ∅ else s.pencilMarks i j) : Finset Nat).erase num
      else if i = row ∧ j = col then ∅ else s.pencilMarks i j := by
    intro i j
    rw [hstate, updatePencilMarks_marks]
    rfl
  have hself : (placeNumber s row col num).2.pencilMarks row col = ∅ := by
    rw [hmarks]
    rw [if_pos (Or.inl (mem_rowCells.mpr ⟨rfl, hc⟩)), if_pos ⟨rfl, rfl⟩]
    exact Finset.erase_empty num
  refine ⟨hself, ?_, ?_, ?_, ?_⟩
  · intro i j hi hj hsu
    have hmem : (i, j) ∈ rowCells row ∨ (i, j) ∈ colCells col ∨ (i, j) ∈ boxCells row col := by
      rcases hsu with h | h | ⟨h2, h3⟩
      · exact Or.inl (mem_rowCells.mpr ⟨h.symm, hj⟩)
      · exact Or.inr (Or.inl (mem_colCells.mpr ⟨h.symm, hi⟩))
      · exact Or.inr (Or.inr (mem_boxCells.mpr ⟨h2.symm, h3.symm⟩))
    rw [hmarks, if_pos hmem]
    exact Finset.not_mem_erase num _
  · intro i j m hm
    rw [hmarks] at hm
    by_cases hmem : (i, j) ∈ rowCells row ∨ (i, j) ∈ colCells col ∨ (i, j) ∈ boxCells row col
    · rw [if_pos hmem] at hm
      by_cases hij : i = row ∧ j = col
      · rw [if_pos hij] at hm
        exact absurd hm (by simp)
      · rw [if_neg hij] at hm
        exact Finset.mem_of_mem_erase hm
    · rw [if_neg hmem] at hm
      by_cases hij : i = row ∧ j = col
      · rw [if_pos hij] at hm
        exact absurd hm (by simp)
      · rw [if_neg hij] at hm
        exact hm
  · intro i j hi hj hsu
    have hmem : ¬((i, j) ∈ rowCells row ∨ (i, j) ∈ colCells col ∨ (i, j) ∈ boxCells row col) := by
      rintro (h | h | h)
      · exact hsu (Or.inl (mem_rowCells.mp h).1.symm)
      · exact hsu (Or.inr (Or.inl (mem_colCells.mp h).1.symm))
      · have h2 := mem_boxCells.mp h
        exact hsu (Or.inr (Or.inr ⟨h2.1.symm, h2.2.symm⟩))
    have hij : ¬(i = row ∧ j = col) := by
      rintro ⟨rfl, rfl⟩
      exact hsu (sameUnit_refl i j)
    rw [hmarks, if_neg hmem, if_neg hij]
  · intro i j m hij hm
    have hij2 : ¬(i = row ∧ j = col) := by
      rintro ⟨rfl, rfl⟩
      exact hij rfl
    rw [hmarks, if_neg hij2]
    by_cases hmem : (i, j) ∈ rowCells row ∨ (i, j) ∈ colCells col ∨ (i, j) ∈ boxCells row col
    · rw [if_pos hmem, Finset.mem_erase]
      exact and_iff_right hm
    · rw [if_neg hmem]

/-- C8 witness: the committed cell's pencil marks are cleared by the
successful commit of 9 at (8,8) on the Scenario B session. -/
theorem c8_witness :
    (placeNumber scenarioBState 8 8 9).2.pencilMarks 8 8 = ∅ :=
  (c8_pencil_prune scenarioBState 8 8 9 (by decide) (by decide) (by decide) (by decide)).1

/-- Searching a filtered list is searching the original list with the
conjunction of the two predicates. -/
theorem find?_filter_comm {α : Type} (l : List α) (p q : α → Bool) :
    (l.filter p).find? q = l.find? (fun a => p a && q a) := by
  induction l with
  | nil => rfl
  | cons a l ih =>
    rw [List.filter_cons]
    by_cases hp : p a = true
    · rw [if_pos hp]
      by_cases hq : q a = true
      · rw [List.find?_cons_of_pos _ hq, List.find?_cons_of_pos]
        rw [hp, hq]
        rfl
      · rw [List.find?_cons_of_neg _ hq, List.find?_cons_of_neg, ih]
        simp [hp, hq]
    · rw [if_neg hp, List.find?_cons_of_neg, ih]
      simp [hp]

/-- getHint returns the null outcome exactly when the row-major empty-cell
list is empty. -/
theorem getHint_none_iff (s : EngineState) (randIdx : Nat) :
    getHint s randIdx = none ↔
      (allPositions.filter fun p => s.grid p.1 p.2 == 0) = [] := by
  rw [getHint]
  by_cases hemp : (allPositions.filter fun p => s.grid p.1 p.2 == 0).isEmpty
  · rw [if_pos hemp]
    simp only [List.isEmpty_iff] at hemp
    simp [hemp]
  · rw [if_neg hemp]
    constructor
    · intro h
      split at h <;> simp at h
    · intro h
      exact absurd (List.isEmpty_iff.mpr h) hemp

/-- C9: with a stored solution present, getHint returns the null outcome
exactly when no empty cell remains; and whenever some empty cell has exactly
one possible value, getHint returns the first such cell in row-major order
together with that forced value, which is the unique element of
getPossibleValues for that cell at call time. -/
theorem c9_getHint_forced (s : EngineState) (randIdx : Nat)
    (hsol : s.solution.isSome = true) :
    ((getHint s randIdx = none) ↔ ∀ p ∈ allPositions, s.grid p.1 p.2 ≠ 0) ∧
    (∀ p : Nat × Nat,
      allPositions.find? (fun q => (s.grid q.1 q.2 == 0) &&
          ((getPossibleValues s q.1 q.2).length == 1)) = some p →
      getHint s randIdx =
        some { row := p.1, col := p.2,
               value := (getPossibleValues s p.1 p.2).headD 0,
               reason := "Only one possible value" } ∧
      getPossibleValues s p.1 p.2 = [(getPossibleValues s p.1 p.2).headD 0]) := by
  constructor
  · rw [getHint_none_iff, List.filter_eq_nil_iff]
    constructor
    · intro h p hp
      simpa using h p hp
    · intro h p hp
      simpa using h p hp
  · intro p hfind
    have hf2 : (allPositions.filter fun p => s.grid p.1 p.2 == 0).find?
        (fun q => (getPossibleValues s q.1 q.2).length == 1) = some p := by
      rw [find?_filter_comm]
      exact hfind
    have hpred := List.find?_some hf2
    have hmemf := List.mem_of_find?_eq_some hf2
    have hemp : ¬(allPositions.filter fun p => s.grid p.1 p.2 == 0).isEmpty := by
      rw [List.isEmpty_iff]
      intro h
      rw [h] at hmemf
      cases hmemf
    have hlen : (getPossibleValues s p.1 p.2).length = 1 := by
      simpa using hpred
    obtain ⟨a, ha⟩ := List.length_eq_one.mp hlen
    have hhead : (getPossibleValues s p.1 p.2).headD 0 = a := by
      rw [ha]
      rfl
    constructor
    · rw [getHint]
      rw [if_neg hemp]
      rw [hf2]
    · rw [hhead, ha]

/-- C9 witness: on the Scenario B session (single empty cell (8,8) with
forced value), getHint returns the forced hint at (8,8). -/
theorem c9_witness :
    getHint scenarioBState 0 =
      some { row := 8, col := 8,
             value := (getPossibleValues scenarioBState 8 8).headD 0,
             reason := "Only one possible value" } :=
  ((c9_getHint_forced scenarioBState 0 (by decide)).2 (8, 8) (by decide)).1

/-- C10: in every session state reachable from init through applyValue,
togglePencilMark and reset, every cell holding a non-zero value has an
empty pencil-mark set: marks are only added to empty cells, are cleared when
the cell receives a committed value, and init/reset clear all marks. -/
theorem c10_marks_only_on_empty {s : EngineState} (h : Reachable s) :
    ∀ r c, s.grid r c ≠ 0 → s.pencilMarks r c = ∅ := by
  induction h with
  | init puzzle sol =>
    intro r c h0
    rfl
  | place s row col num hreach ih =>
    by_cases hgiven : s.initialGrid row col ≠ 0
    · rw [placeNumber, if_pos hgiven]
      exact ih
    by_cases h0 : num = 0
    · rw [placeNumber, if_neg hgiven, if_pos h0]
      dsimp only
      intro r c hnz
      by_cases h1 : r = row ∧ c = col
      · obtain ⟨rfl, rfl⟩ := h1
        rw [setCell_same] at hnz
        exact absurd rfl hnz
      · rw [setCell_other _ _ h1] at hnz
        exact ih r c hnz
    by_cases hvm : isValidMove s row col num
    · rw [placeNumber, if_neg hgiven, if_neg h0, if_pos hvm]
      dsimp only
      intro r c hnz
      rw [updatePencilMarks_marks]
      have hgrid := (updatePencilMarks_fields
        (clearPencilMarksForCell { s with grid := setCell s.grid row col num } row col)
        row col num).1
      by_cases h1 : r = row ∧ c = col
      · obtain ⟨rfl, rfl⟩ := h1
        rw [show (clearPencilMarksForCell { s with grid := setCell s.grid r c num }
            r c).pencilMarks r c = ∅ by simp [clearPencilMarksForCell]]
        by_cases hmem : ((r, c) ∈ rowCells r ∨ (r, c) ∈ colCells c ∨ (r, c) ∈ boxCells r c)
        · rw [if_pos hmem]
          exact Finset.erase_empty num
        · rw [if_neg hmem]
      · rw [show (clearPencilMarksForCell { s with grid := setCell s.grid row col num }
            row col).pencilMarks r c = s.pencilMarks r c by simp [clearPencilMarksForCell, h1]]
        have hnz2 : s.grid r c ≠ 0 := by
          rw [show (updatePencilMarks (clearPencilMarksForCell
              { s with grid := setCell s.grid row col num } row col) row col num).grid =
              setCell s.grid row col num from hgrid] at hnz
          rw [setCell_other _ _ h1] at hnz
          exact hnz
        rw [ih r c hnz2]
        by_cases hmem : ((r, c) ∈ rowCells row ∨ (r, c) ∈ colCells col ∨ (r, c) ∈ boxCells row col)
        · rw [if_pos hmem]
          exact Finset.erase_empty num
        · rw [if_neg hmem]
    · rw [placeNumber, if_neg hgiven, if_neg h0, if_neg hvm]
      exact ih
  | toggle s row col num hreach ih =>
    by_cases hmem : num ∈ s.pencilMarks row col
    · rw [togglePencilMark, if_pos hmem]
      dsimp only
      intro r c hnz
      rw [removePencilMark]
      dsimp only
      by_cases h1 : r = row ∧ c = col
      · rw [if_pos h1, ih r c hnz]
        exact Finset.erase_empty num
      · rw [if_neg h1]
        exact ih r c hnz
    · rw [togglePencilMark, if_neg hmem]
      dsimp only
      rw [addPencilMark]
      by_cases hg : s.grid row col = 0
      · rw [if_pos hg]
        dsimp only
        intro r c hnz
        by_cases h1 : r = row ∧ c = col
        · obtain ⟨rfl, rfl⟩ := h1
          exact absurd hg hnz
        · rw [if_neg h1]
          exact ih r c hnz
      · rw [if_neg hg]
        exact ih
  | reset s hreach ih =>
    intro r c h0
    rfl

/-- C10 witness: the invariant at a concrete reachable state (the Scenario A
session, whose cell (0,0) holds a value). -/
theorem c10_witness : scenarioAState.pencilMarks 0 0 = ∅ :=
  c10_marks_only_on_empty (Reachable.init scenarioAGrid none) 0 0 (by decide)

/-- C4: for every candidate-order oracle whose draws are permutations of
1..9 (the reshuffled numbers array), the backtracking filler started from
the empty grid always succeeds, and the resulting complete grid has every
row, every column and every 3×3 box a permutation of 1..9 — no zeros and no
duplicates. -/
theorem c4_generateCompletePuzzle_correct (shuffle : Grid → List Nat)
    (hsh : ∀ g, (shuffle g).Perm nineList) :
    (fillGrid shuffle 81 emptyGrid).isSome = true ∧
    (∀ r < 9, (rowVals (generateCompletePuzzle shuffle) r).Perm nineList) ∧
    (∀ c < 9, (colVals (generateCompletePuzzle shuffle) c).Perm nineList) ∧
    (∀ b < 9, (boxVals (generateCompletePuzzle shuffle) b).Perm nineList) := by
  have hsolves : solvesTo scenarioAGrid emptyGrid := by
    refine ⟨by decide, by decide, ?_⟩
    intro p hp h
    exact absurd rfl h
  have hsome := fillGrid_isSome hsh 81 emptyGrid scenarioAGrid hsolves (by decide)
  obtain ⟨g', hg'⟩ := Option.isSome_iff_exists.mp hsome
  have hgen : generateCompletePuzzle shuffle = g' := by
    rw [generateCompletePuzzle, hg']
  have hvalid0 : validGridProp emptyGrid := by
    intro p hp q hq hne hsu hnz
    exact absurd rfl hnz
  have hsound := fillGrid_sound hsh 81 emptyGrid g' hvalid0
    (fun p hp => Nat.zero_le 9) hg'
  obtain ⟨hvalid, hrange⟩ := hsound
  refine ⟨hsome, ?_, ?_, ?_⟩
  · intro r hr
    have heq : rowVals g' r = (rowCells r).map (fun p => g' p.1 p.2) := by
      rw [rowCells, List.map_map]
      rfl
    rw [hgen, heq]
    refine unitVals_perm (rowCells r) (rowCells_nodup r) (rowCells_length r)
      ?_ ?_ hvalid hrange
    · rintro ⟨a, b⟩ hp
      obtain ⟨rfl, hb⟩ := mem_rowCells.mp hp
      exact mem_allPositions.mpr ⟨hr, hb⟩
    · rintro ⟨a, b⟩ hp ⟨a2, b2⟩ hq hne
      obtain ⟨rfl, hb⟩ := mem_rowCells.mp hp
      obtain ⟨rfl, hb2⟩ := mem_rowCells.mp hq
      exact Or.inl rfl
  · intro c hc
    have heq : colVals g' c = (colCells c).map (fun p => g' p.1 p.2) := by
      rw [colCells, List.map_map]
      rfl
    rw [hgen, heq]
    refine unitVals_perm (colCells c) (colCells_nodup c) (colCells_length c)
      ?_ ?_ hvalid hrange
    · rintro ⟨a, b⟩ hp
      obtain ⟨rfl, ha⟩ := mem_colCells.mp hp
      exact mem_allPositions.mpr ⟨ha, hc⟩
    · rintro ⟨a, b⟩ hp ⟨a2, b2⟩ hq hne
      obtain ⟨rfl, ha⟩ := mem_colCells.mp hp
      obtain ⟨rfl, ha2⟩ := mem_colCells.mp hq
      exact Or.inr (Or.inl rfl)
  · intro b hb
    have e1 : b / 3 * 3 / 3 * 3 = b / 3 * 3 := by omega
    have e2 : b % 3 * 3 / 3 * 3 = b % 3 * 3 := by omega
    have heq : boxVals g' b = (boxCells (b / 3 * 3) (b % 3 * 3)).map
        (fun p => g' p.1 p.2) := by
      simp only [boxVals, boxCells, List.map_flatMap, List.map_map, Function.comp, e1, e2]
      rfl
    rw [hgen, heq]
    refine unitVals_perm (boxCells (b / 3 * 3) (b % 3 * 3))
      (boxCells_nodup _ _) (boxCells_length _ _) ?_ ?_ hvalid hrange
    · rintro ⟨i, j⟩ hp
      obtain ⟨h1, h2⟩ := mem_boxCells.mp hp
      refine mem_allPositions.mpr ⟨by omega, by omega⟩
    · rintro ⟨i, j⟩ hp ⟨i2, j2⟩ hq hne
      obtain ⟨h1, h2⟩ := mem_boxCells.mp hp
      obtain ⟨h3, h4⟩ := mem_boxCells.mp hq
      exact Or.inr (Or.inr ⟨by omega, by omega⟩)

/-- C4 witness: the filler succeeds from the empty grid with the fixed
ascending candidate order. -/
theorem c4_witness :
    (fillGrid (fun _ => nineList) 81 emptyGrid).isSome = true :=
  (c4_generateCompletePuzzle_correct (fun _ => nineList)
    (fun _ => List.Perm.refl nineList)).1

end Sudokoo
